import Mathlib

/-!
Verification development for the PubMed citation-alert batch job.

The repository is a small Python batch job: it searches PubMed, checks each
article's current citation count against OpenCitations, records
threshold-exceeding articles in a SQLite ledger (`src/database.py`),
summarizes abstracts via the Gemini API (`src/gemini_summarizer.py`), looks
up journal impact factors (`src/dictionary.py`), emails a digest
(`src/alert.py`) and finally marks the emailed records as notified
(`src/main.py`).

The shallow embedding below models:
* the SQLite `alerts` table as a list of `AlertRecord`s kept in insertion
  (rowid) order together with the next surrogate id;
* each ledger operation of `src/database.py` as a pure function on that
  state (`ORDER BY citation_increase DESC` is modelled as a stable sort on
  the insertion-ordered row list, matching SQLite's scan-then-sort
  behaviour on this table);
* `get_impact_factor` of `src/dictionary.py` over an association list that
  preserves the Python dict's insertion order, with Python float literals
  rendered as rationals;
* the retry loop of `summarize_abstract` in `src/gemini_summarizer.py` as a
  fuelled loop over an abstract per-attempt API outcome, returning the
  produced string together with the list of retry waits slept (the fixed
  inter-request wait on success is not a retry wait and is not recorded);
* steps 5-11 of `run` in `src/main.py` (citation check, ledger insert,
  pending query, email send, mark-notified) over abstract collaborator
  results; the network-facing steps 2-4 only produce the `articles` input.
-/

/-! ### Ledger data model (src/database.py, table `alerts`) -/

/-- One row of the `alerts` table. -/
structure AlertRecord where
  id : Nat
  pmid : String
  doi : String
  title : String
  journal : String
  published_date : String
  citation_increase : Int
  detected_month : String
  notified : Bool
deriving DecidableEq, Repr

/-- The ledger: rows in insertion (rowid) order plus the next AUTOINCREMENT id. -/
structure LedgerState where
  rows : List AlertRecord
  nextId : Nat
deriving DecidableEq, Repr

/-- A freshly created database: no rows, AUTOINCREMENT starts at 1. -/
def emptyLedger : LedgerState := { rows := [], nextId := 1 }

/-- Schema setup `init_db`: `CREATE TABLE IF NOT EXISTS` leaves every existing row unchanged,
so on the ledger state it is the identity. -/
def init_db (st : LedgerState) : LedgerState := st

/-- The duplicate check of `insert_alert`:
`SELECT id FROM alerts WHERE pmid = ? AND detected_month = ?` finds a row. -/
def hasKey (st : LedgerState) (pmid detected_month : String) : Bool :=
  st.rows.any (fun r => r.pmid == pmid && r.detected_month == detected_month)

/-- Number of rows with the given (pmid, detected_month) key. -/
def countKey (st : LedgerState) (pmid detected_month : String) : Nat :=
  (st.rows.filter (fun r => r.pmid == pmid && r.detected_month == detected_month)).length

/-- Operation `insert_alert` (src/database.py lines 49-88): if a row with the same
(pmid, detected_month) exists, return `false` without writing; otherwise
append one new row with `notified = 0` and return `true`. -/
def insert_alert (st : LedgerState) (pmid doi title journal published_date : String)
    (citation_increase : Int) (detected_month : String) : LedgerState × Bool :=
  if hasKey st pmid detected_month then
    (st, false)
  else
    ({ rows := st.rows ++
        [{ id := st.nextId, pmid := pmid, doi := doi, title := title,
           journal := journal, published_date := published_date,
           citation_increase := citation_increase,
           detected_month := detected_month, notified := false }],
       nextId := st.nextId + 1 },
     true)

/-- The `WHERE detected_month = ? AND notified = 0` filter of `get_pending_alerts`. -/
def pendingPred (detected_month : String) (r : AlertRecord) : Bool :=
  r.detected_month == detected_month && r.notified == false

/-- The `ORDER BY citation_increase DESC` clause as a relation: `a` may come before `b`. -/
def citGE (a b : AlertRecord) : Prop :=
  b.citation_increase ≤ a.citation_increase

instance : DecidableRel citGE := fun a b =>
  inferInstanceAs (Decidable (b.citation_increase ≤ a.citation_increase))

instance : IsTotal AlertRecord citGE :=
  ⟨fun a b => Int.le_total b.citation_increase a.citation_increase⟩

instance : IsTrans AlertRecord citGE :=
  ⟨fun _ _ _ hab hbc => le_trans hbc hab⟩

/-- Operation `get_pending_alerts` (src/database.py lines 91-115): rows of the given
month with `notified = 0`, ordered by `citation_increase DESC`; ties keep
the table scan order (insertion order), i.e. a stable sort of the filtered
row list. -/
def get_pending_alerts (st : LedgerState) (detected_month : String) : List AlertRecord :=
  (st.rows.filter (pendingPred detected_month)).insertionSort citGE

/-- The row-wise effect of `UPDATE alerts SET notified = 1 WHERE id IN (...)`. -/
def markRow (alert_ids : List Nat) (r : AlertRecord) : AlertRecord :=
  if alert_ids.contains r.id then { r with notified := true } else r

/-- Operation `mark_as_notified` (src/database.py lines 118-135): empty id list returns
immediately; otherwise `UPDATE alerts SET notified = 1 WHERE id IN (...)`. -/
def mark_as_notified (st : LedgerState) (alert_ids : List Nat) : LedgerState :=
  if alert_ids = [] then st
  else { st with rows := st.rows.map (markRow alert_ids) }

/-! ### Impact-factor lookup (src/dictionary.py) -/

/-- Result of `get_impact_factor`: a float value or the string `'N/A'`. -/
inductive IFValue where
  | na : IFValue
  | val : ℚ → IFValue
deriving DecidableEq, Repr

/-- The dictionary `IMPACT_FACTOR_DICTIONARY` (src/dictionary.py lines 33-51), in the
Python dict's listed (insertion) order; floats as rationals. -/
def IMPACT_FACTOR_DICTIONARY : List (String × ℚ) :=
  [("Ophthalmology", 14.0),
   ("JAMA Ophthalmology", 8.1),
   ("Progress in Retinal and Eye Research", 18.3),
   ("American Journal of Ophthalmology", 5.2),
   ("British Journal of Ophthalmology", 4.1),
   ("Investigative Ophthalmology & Visual Science", 4.2),
   ("Investigative Ophthalmology and Visual Science", 4.2),
   ("IOVS", 4.2),
   ("Eye", 3.0),
   ("Cornea", 2.8),
   ("Journal of Glaucoma", 2.4),
   ("Retina", 4.5),
   ("Graefe\x27s Archive for Clinical and Experimental Ophthalmology", 3.2),
   ("Ocular Surface", 7.6),
   ("The Ocular Surface", 7.6),
   ("Translational Vision Science & Technology", 3.0),
   ("Translational Vision Science and Technology", 3.0)]

/-- Python's `str.lower()`: lower-case every character. -/
def strLower (s : String) : String := ⟨s.data.map Char.toLower⟩

/-- Test that `a` is a leading segment of `b` (character lists). -/
def isLeading : List Char → List Char → Bool
  | [], _ => true
  | _ :: _, [] => false
  | a :: as, b :: bs => a == b && isLeading as bs

/-- Python's `nee in hay` on strings: `nee` occurs contiguously in `hay`. -/
def isSubstr (nee : List Char) : List Char → Bool
  | [] => isLeading nee []
  | c :: t => isLeading nee (c :: t) || isSubstr nee t

/-- The partial-match test of `get_impact_factor`:
`key.lower() in journal_lower or journal_lower in key.lower()`. -/
def ifMatch (journal_lower : String) (kv : String × ℚ) : Bool :=
  isSubstr (strLower kv.1).data journal_lower.data ||
  isSubstr journal_lower.data (strLower kv.1).data

/-- Lookup `get_impact_factor` (src/dictionary.py lines 70-94): empty name returns
`'N/A'` at once; then exact dict lookup; then the first entry in listed
order matching case-insensitively in either substring direction; else `'N/A'`. -/
def get_impact_factor (journal_name : String) : IFValue :=
  if journal_name = "" then IFValue.na
  else
    match IMPACT_FACTOR_DICTIONARY.lookup journal_name with
    | some v => IFValue.val v
    | none =>
      match IMPACT_FACTOR_DICTIONARY.find? (ifMatch (strLower journal_name)) with
      | some kv => IFValue.val kv.2
      | none => IFValue.na

/-- The lookup exactly as claim C8 words it (and spec §9): exact match first,
then scan the entries in listed order and return the first entry matching by
case-insensitive substring comparison, else `'N/A'` — with no special case
for the empty journal name. -/
def get_impact_factor_claimSpec (journal_name : String) : IFValue :=
  match IMPACT_FACTOR_DICTIONARY.lookup journal_name with
  | some v => IFValue.val v
  | none =>
    match IMPACT_FACTOR_DICTIONARY.find? (ifMatch (strLower journal_name)) with
    | some kv => IFValue.val kv.2
    | none => IFValue.na

/-! ### Gemini summarizer retry loop (src/gemini_summarizer.py) -/

/-- Constant `MAX_RETRIES = 3`. -/
def MAX_RETRIES : Nat := 3

/-- Constant `RETRY_WAIT_SEC = 65`, the fixed fallback wait on a 429-style error. -/
def RETRY_WAIT_SEC : ℚ := 65

/-- Outcome of one `client.models.generate_content` call: a response text or
an exception rendered as its message string. -/
inductive ApiOutcome where
  | ok : String → ApiOutcome
  | err : String → ApiOutcome

/-- Digits to a natural number. -/
def digitsToNat (ds : List Char) : Nat :=
  ds.foldl (fun n c => n * 10 + (c.toNat - 48)) 0

/-- Value of `float("d1.d2")` as a rational. -/
def decimalToRat (d1 d2 : List Char) : ℚ :=
  (digitsToNat d1 : ℚ) + (digitsToNat d2 : ℚ) / ((10 : ℚ) ^ d2.length)

/-- Try the pattern `retry in (\d+\.?\d*)s` at the head of an already
lower-cased character list; on success return the captured number.
Backtracking analysis of the regex: after the literal, the greedy digit run
must be directly followed by `s`, or by `.`, a (possibly empty) digit run
and then `s` — every backtracked alternative ends on a digit or a dot and
can never be followed by `s`. -/
def hintAt (l : List Char) : Option ℚ :=
  if isLeading "retry in ".data l then
    let rest := l.drop 9
    let d1 := rest.takeWhile Char.isDigit
    match d1, rest.dropWhile Char.isDigit with
    | [], _ => none
    | _ :: _, 's' :: _ => some (digitsToNat d1 : ℚ)
    | _ :: _, '.' :: r2 =>
      (match r2.dropWhile Char.isDigit with
       | 's' :: _ => some (decimalToRat d1 (r2.takeWhile Char.isDigit))
       | _ => none)
    | _ :: _, _ => none
  else none

/-- Leftmost occurrence: scan start positions left to right. -/
def searchHint : List Char → Option ℚ
  | [] => none
  | c :: t =>
    match hintAt (c :: t) with
    | some q => some q
    | none => searchHint t

/-- Model of `re.search(r"retry in (\d+\.?\d*)s", err_str, re.IGNORECASE)` followed by
`float(m.group(1))`: case-insensitivity is modelled by lower-casing the
message before the scan. -/
def extractRetryHint (msg : String) : Option ℚ :=
  searchHint (strLower msg).data

/-- The wait computed in the `except` branch before a retry:
`wait_sec = RETRY_WAIT_SEC`, overridden by the parsed hint plus 5 when the
regex matches. -/
def waitOnError (msg : String) : ℚ :=
  match extractRetryHint msg with
  | some h => h + 5
  | none => RETRY_WAIT_SEC

/-- Placeholder returned after all retries fail. -/
def FAIL_MSG : String := "（Gemini API による要約に失敗しました）"

/-- Placeholder for an empty abstract. -/
def NO_ABS_MSG : String := "（アブストラクトが存在しないため要約できません）"

/-- Placeholder when the API key is unset. -/
def NO_KEY_MSG : String := "（Gemini API キーが未設定のため要約をスキップしました）"

/-- The `for attempt in range(1, MAX_RETRIES + 1)` loop of
`summarize_abstract`: returns the produced string and the list of retry
waits slept, in order. `fuel` counts the attempts still available. -/
def loopFrom (outcomes : Nat → ApiOutcome) : Nat → Nat → String × List ℚ
  | _, 0 => (FAIL_MSG, [])
  | attempt, fuel + 1 =>
    match outcomes attempt with
    | ApiOutcome.ok t => (t.trim, [])
    | ApiOutcome.err m =>
      if attempt < MAX_RETRIES then
        let r := loopFrom outcomes (attempt + 1) fuel
        (r.1, waitOnError m :: r.2)
      else (FAIL_MSG, [])

/-- Python's `not abstract or not abstract.strip()`: the abstract is empty
or consists of whitespace only. -/
def isBlank (s : String) : Bool := s.data.all Char.isWhitespace

/-- Operation `summarize_abstract` (src/gemini_summarizer.py): guard clauses for an
empty/whitespace abstract and a missing API key, then the retry loop. -/
def summarize_abstract (abstract apiKey : String) (outcomes : Nat → ApiOutcome) :
    String × List ℚ :=
  if isBlank abstract then (NO_ABS_MSG, [])
  else if apiKey = "" then (NO_KEY_MSG, [])
  else loopFrom outcomes 1 MAX_RETRIES

/-- The fallback wait as claim C6 words it: the fixed fallback doubled per
attempt index (exponential growth in the attempt number). -/
def claimFallbackWait (attempt : Nat) : ℚ :=
  RETRY_WAIT_SEC * 2 ^ (attempt - 1)

/-! ### Orchestrator, steps 5-11 of `run` (src/main.py) -/

/-- The citation threshold fixed in `run` (`threshold = 10`). -/
def threshold : Int := 10

/-- An article as produced by the metadata-fetch step. `doi` is `none` or
`some ""` when Python's `if not doi` guard skips the article. -/
structure Article where
  pmid : String
  doi : Option String
  title : String
  journal : String
  published_date : String
  abstract : Option String
deriving DecidableEq, Repr

/-- Python's `if not doi: continue` guard. -/
def doiFalsy : Option String → Bool
  | none => true
  | some s => s == ""

/-- One iteration of the steps 5-6 loop of `run`: skip the article when the
DOI is falsy or the citation count is unavailable, insert an alert when
`total_citations >= threshold`. -/
def processOne (getCitations : String → Option Int) (period : String)
    (acc : LedgerState) (a : Article) : LedgerState :=
  match a.doi with
  | none => acc
  | some d =>
    if d == "" then acc
    else
      match getCitations d with
      | none => acc
      | some tc =>
        if threshold ≤ tc then
          (insert_alert acc a.pmid d a.title a.journal a.published_date tc period).1
        else acc

/-- Steps 5-6 of `run`: the loop over all fetched articles. -/
def processArticles (st : LedgerState) (articles : List Article)
    (getCitations : String → Option Int) (period : String) : LedgerState :=
  articles.foldl (processOne getCitations period) st

/-- What a run did: final ledger state, whether the email send was attempted,
and the id list passed to `mark_as_notified` (or `none` if it was not called). -/
structure RunResult where
  ledger : LedgerState
  emailAttempted : Bool
  marked : Option (List Nat)
deriving DecidableEq, Repr

/-- Steps 5-11 of `run` (src/main.py): insert phase, pending query, early
return on no pending records, dry-run preview, email send with early return
on failure, and finally `mark_as_notified` on the pending ids. -/
def run (st0 : LedgerState) (articles : List Article)
    (getCitations : String → Option Int) (period : String)
    (emailOk dryRun : Bool) : RunResult :=
  let st1 := processArticles st0 articles getCitations period
  let pending := get_pending_alerts st1 period
  if pending = [] then { ledger := st1, emailAttempted := false, marked := none }
  else if dryRun then { ledger := st1, emailAttempted := false, marked := none }
  else if emailOk then
    let ids := pending.map (fun a => a.id)
    { ledger := mark_as_notified st1 ids, emailAttempted := true, marked := some ids }
  else { ledger := st1, emailAttempted := true, marked := none }

/-! ### Concrete fixtures used by witnesses and counterexamples -/

/-- A recorded alert row used by concrete witness states. -/
def dupRecord : AlertRecord :=
  { id := 1, pmid := "p1", doi := "d", title := "t", journal := "j",
    published_date := "pd", citation_increase := 5, detected_month := "M",
    notified := false }

/-- A one-row ledger holding `dupRecord`. -/
def dupLedger : LedgerState := { rows := [dupRecord], nextId := 2 }

/-- A second, unnotified row with a higher citation count. -/
def markRecord2 : AlertRecord :=
  { id := 2, pmid := "p2", doi := "d2", title := "t2", journal := "j2",
    published_date := "pd2", citation_increase := 7, detected_month := "M",
    notified := false }

/-- A two-row ledger with `dupRecord` and `markRecord2`. -/
def markLedger : LedgerState := { rows := [dupRecord, markRecord2], nextId := 3 }

/-- A row whose `notified` flag is already set, for the C4 witness. -/
def notifiedRecord : AlertRecord :=
  { id := 3, pmid := "p3", doi := "d3", title := "t3", journal := "j3",
    published_date := "pd3", citation_increase := 9, detected_month := "M",
    notified := true }

/-- A one-row ledger holding the already-notified row. -/
def notifiedLedger : LedgerState := { rows := [notifiedRecord], nextId := 4 }

/-- Two tied rows in month "P" for the C2 stability witness. -/
def tieRecord1 : AlertRecord :=
  { id := 1, pmid := "q1", doi := "e1", title := "u1", journal := "k1",
    published_date := "qd1", citation_increase := 7, detected_month := "P",
    notified := false }

/-- The second tied row, inserted after `tieRecord1`. -/
def tieRecord2 : AlertRecord :=
  { id := 2, pmid := "q2", doi := "e2", title := "u2", journal := "k2",
    published_date := "qd2", citation_increase := 7, detected_month := "P",
    notified := false }

/-- Ledger holding the two tied rows in insertion order. -/
def tieLedger : LedgerState := { rows := [tieRecord1, tieRecord2], nextId := 3 }

/-- A concrete article carrying a DOI, for the C5/C7 scenarios. -/
def cArticle : Article :=
  { pmid := "pmid1", doi := some "10.1/x", title := "T", journal := "J",
    published_date := "2025-01-01", abstract := none }

/-- Concrete API outcomes: attempt 1 fails without a retry hint, every
later attempt succeeds. -/
def witOutcomes : Nat → ApiOutcome :=
  fun n => if n = 1 then ApiOutcome.err "boom" else ApiOutcome.ok "done"

/-- One ledger step preserves the notified-monotonicity invariant:
every old row survives (possibly with `notified` upgraded to `true`, all
other fields intact), and an already-notified row survives verbatim —
no deletion, no `true → false` transition. -/
def StepOk (old new : List AlertRecord) : Prop :=
  (∀ r ∈ old, r ∈ new ∨ { r with notified := true } ∈ new) ∧
  (∀ r ∈ old, r.notified = true → r ∈ new)

/-! ### Helper lemmas -/

/-- A ledger without the key has no row with the key. -/
theorem countKey_eq_zero_of_not_hasKey (st : LedgerState) (pmid month : String)
    (h : hasKey st pmid month = false) : countKey st pmid month = 0 := by
  unfold hasKey at h
  unfold countKey
  rw [List.length_eq_zero, List.filter_eq_nil_iff]
  intro r hr
  rw [List.any_eq_false] at h
  exact fun hc => by simp [h r hr] at hc

/-- Every row of the state produced by `insert_alert` is an old row or has
`notified = false`. -/
theorem insert_alert_row_cases (st : LedgerState)
    (pmid doi title journal pd : String) (ci : Int) (month : String) (r : AlertRecord)
    (hr : r ∈ (insert_alert st pmid doi title journal pd ci month).1.rows) :
    r ∈ st.rows ∨ r.notified = false := by
  unfold insert_alert at hr
  by_cases h : hasKey st pmid month
  · rw [if_pos h] at hr
    exact Or.inl hr
  · rw [if_neg h] at hr
    simp only [List.mem_append, List.mem_singleton] at hr
    rcases hr with hr | hr
    · exact Or.inl hr
    · subst hr
      exact Or.inr rfl

/-- If a row with the key is present, `insert_alert` finds it. -/
theorem hasKey_of_mem (st : LedgerState) (r : AlertRecord) (hr : r ∈ st.rows) :
    hasKey st r.pmid r.detected_month = true := by
  unfold hasKey
  rw [List.any_eq_true]
  exact ⟨r, hr, by simp⟩

/-- Pointwise mapping gives `Forall₂` against the mapped list. -/
theorem forall2_map_of_forall {α β : Type} (R : α → β → Prop) (f : α → β) :
    ∀ l : List α, (∀ x ∈ l, R x (f x)) → List.Forall₂ R l (l.map f)
  | [], _ => List.Forall₂.nil
  | x :: t, h =>
    List.Forall₂.cons (h x (List.mem_cons_self x t))
      (forall2_map_of_forall R f t fun y hy => h y (List.mem_cons_of_mem x hy))

/-- Pointwise reflexivity gives `Forall₂` of a list against itself. -/
theorem forall2_of_forall_self {α : Type} (R : α → α → Prop) (l : List α)
    (h : ∀ x ∈ l, R x x) : List.Forall₂ R l l := by
  have := forall2_map_of_forall R id l (by simpa using h)
  simpa using this

/-- Mapping a function that fixes every element of a list is the identity. -/
theorem map_eq_self_of_forall {α : Type} (f : α → α) :
    ∀ l : List α, (∀ x ∈ l, f x = x) → l.map f = l
  | [], _ => rfl
  | x :: t, h => by
    rw [List.map_cons, h x (List.mem_cons_self x t),
      map_eq_self_of_forall f t fun y hy => h y (List.mem_cons_of_mem x hy)]

/-- Applying `markRow` on a listed id sets `notified` and nothing else. -/
theorem markRow_of_contains (ids : List Nat) (r : AlertRecord)
    (h : ids.contains r.id = true) : markRow ids r = { r with notified := true } := by
  unfold markRow
  rw [if_pos h]

/-- Applying `markRow` on an unlisted id is the identity. -/
theorem markRow_of_not_contains (ids : List Nat) (r : AlertRecord)
    (h : ids.contains r.id = false) : markRow ids r = r := by
  have hne : ¬ (ids.contains r.id = true) := by
    rw [h]
    exact Bool.false_ne_true
  unfold markRow
  rw [if_neg hne]

/-- Function `markRow` is idempotent on every row. -/
theorem markRow_idem (ids : List Nat) (r : AlertRecord) :
    markRow ids (markRow ids r) = markRow ids r := by
  cases hc : ids.contains r.id with
  | true =>
    rw [markRow_of_contains ids r hc, markRow_of_contains ids { r with notified := true } hc]
  | false =>
    rw [markRow_of_not_contains ids r hc, markRow_of_not_contains ids r hc]

/-- Calling `insert_alert` on a present key: no write, returns `false`. -/
theorem insert_alert_of_hasKey (st : LedgerState)
    (pmid doi title journal pd : String) (ci : Int) (month : String)
    (h : hasKey st pmid month = true) :
    insert_alert st pmid doi title journal pd ci month = (st, false) := by
  unfold insert_alert
  rw [if_pos h]

/-- Calling `insert_alert` on an absent key: appends exactly the one fresh row and
returns `true`. -/
theorem insert_alert_of_not_hasKey (st : LedgerState)
    (pmid doi title journal pd : String) (ci : Int) (month : String)
    (h : hasKey st pmid month = false) :
    insert_alert st pmid doi title journal pd ci month =
      ({ rows := st.rows ++
          [{ id := st.nextId, pmid := pmid, doi := doi, title := title,
             journal := journal, published_date := pd, citation_increase := ci,
             detected_month := month, notified := false }],
         nextId := st.nextId + 1 }, true) := by
  unfold insert_alert
  rw [if_neg (by simp [h])]

/-! ### C1: insert_alert deduplication contract -/

/-- C1: for every ledger state and argument tuple, `insert_alert` returns
`false` and performs no write when a row with the same (pmid, detected_month)
already exists; otherwise it appends exactly one new row with
`notified = false` and returns `true`; consequently inserting the same
(pmid, detected_month) pair twice leaves exactly one row with that key and
the second call returns `false`. -/
theorem insert_alert_dedup_spec (st : LedgerState)
    (pmid doi title journal pd : String) (ci : Int) (month : String)
    (doi2 title2 journal2 pd2 : String) (ci2 : Int) :
    (hasKey st pmid month = true →
      insert_alert st pmid doi title journal pd ci month = (st, false)) ∧
    (hasKey st pmid month = false →
      (insert_alert st pmid doi title journal pd ci month).1.rows =
        st.rows ++
          [{ id := st.nextId, pmid := pmid, doi := doi, title := title,
             journal := journal, published_date := pd, citation_increase := ci,
             detected_month := month, notified := false }] ∧
      (insert_alert st pmid doi title journal pd ci month).2 = true) ∧
    (hasKey st pmid month = false →
      countKey (insert_alert st pmid doi title journal pd ci month).1 pmid month = 1 ∧
      insert_alert (insert_alert st pmid doi title journal pd ci month).1
          pmid doi2 title2 journal2 pd2 ci2 month =
        ((insert_alert st pmid doi title journal pd ci month).1, false)) := by
  refine ⟨insert_alert_of_hasKey st pmid doi title journal pd ci month, fun h => ?_, fun h => ?_⟩
  · rw [insert_alert_of_not_hasKey st pmid doi title journal pd ci month h]
    exact ⟨rfl, rfl⟩
  · have hrows : (insert_alert st pmid doi title journal pd ci month).1.rows =
        st.rows ++
          [{ id := st.nextId, pmid := pmid, doi := doi, title := title,
             journal := journal, published_date := pd, citation_increase := ci,
             detected_month := month, notified := false }] := by
      rw [insert_alert_of_not_hasKey st pmid doi title journal pd ci month h]
    have hmem : ({ id := st.nextId, pmid := pmid, doi := doi, title := title,
                   journal := journal, published_date := pd, citation_increase := ci,
                   detected_month := month, notified := false } : AlertRecord) ∈
        (insert_alert st pmid doi title journal pd ci month).1.rows := by
      rw [hrows]
      exact List.mem_append_right _ (List.mem_singleton.mpr rfl)
    have hkey : hasKey (insert_alert st pmid doi title journal pd ci month).1 pmid month = true :=
      hasKey_of_mem _ _ hmem
    refine ⟨?_, insert_alert_of_hasKey _ pmid doi2 title2 journal2 pd2 ci2 month hkey⟩
    have h0 : countKey st pmid month = 0 := countKey_eq_zero_of_not_hasKey st pmid month h
    unfold countKey at h0 ⊢
    rw [hrows, List.filter_append, List.length_append, h0]
    simp

/-- Witness for C1: on the empty ledger the first insert of ("p1", "M")
succeeds, after it exactly one row with the key exists, and a second insert
of the same key with different metadata is rejected without a write. -/
theorem insert_alert_dedup_spec_witness :
    countKey (insert_alert emptyLedger "p1" "d" "t" "j" "pd" 5 "M").1 "p1" "M" = 1 ∧
    insert_alert (insert_alert emptyLedger "p1" "d" "t" "j" "pd" 5 "M").1
        "p1" "d2" "t2" "j2" "pd2" 6 "M" =
      ((insert_alert emptyLedger "p1" "d" "t" "j" "pd" 5 "M").1, false) :=
  (insert_alert_dedup_spec emptyLedger "p1" "d" "t" "j" "pd" 5 "M" "d2" "t2" "j2" "pd2" 6).2.2
    (by decide)

/-! ### C9: duplicate insert discards the new metadata, first write wins -/

/-- C9: calling `insert_alert` with a (pmid, detected_month) pair that an
existing row `r` already carries returns `false` and leaves the entire
ledger state unchanged, whatever the other arguments are; in particular `r`
keeps all of its original field values. -/
theorem insert_alert_duplicate_frame (st : LedgerState) (r : AlertRecord)
    (hr : r ∈ st.rows) (doi2 title2 journal2 pd2 : String) (ci2 : Int) :
    insert_alert st r.pmid doi2 title2 journal2 pd2 ci2 r.detected_month = (st, false) ∧
    r ∈ (insert_alert st r.pmid doi2 title2 journal2 pd2 ci2 r.detected_month).1.rows := by
  have h := insert_alert_of_hasKey st r.pmid doi2 title2 journal2 pd2 ci2 r.detected_month
    (hasKey_of_mem st r hr)
  exact ⟨h, by rw [h]; exact hr⟩

/-- Witness for C9: re-inserting ("p1", "M") with entirely different
metadata is a no-op returning `false`, and the original row survives. -/
theorem insert_alert_duplicate_frame_witness :
    insert_alert dupLedger dupRecord.pmid "other-doi" "other-title" "other-journal"
        "other-date" 99 dupRecord.detected_month = (dupLedger, false) ∧
    dupRecord ∈ (insert_alert dupLedger dupRecord.pmid "other-doi" "other-title"
        "other-journal" "other-date" 99 dupRecord.detected_month).1.rows :=
  insert_alert_duplicate_frame dupLedger dupRecord (List.mem_singleton.mpr rfl)
    "other-doi" "other-title" "other-journal" "other-date" 99

/-! ### C3: mark_as_notified updates exactly the given ids -/

/-- C3: the operation `mark_as_notified` relates the old and new row lists pointwise —
a row whose id is in the given list becomes the same row with
`notified = true`, every other row is unchanged (all fields) — and with an
empty id list the whole state is untouched. -/
theorem mark_as_notified_spec (st : LedgerState) (ids : List Nat) :
    List.Forall₂ (fun r r' =>
        (ids.contains r.id = true → r' = { r with notified := true }) ∧
        (ids.contains r.id = false → r' = r))
      st.rows (mark_as_notified st ids).rows ∧
    (ids = [] → mark_as_notified st ids = st) := by
  constructor
  · by_cases hids : ids = []
    · subst hids
      unfold mark_as_notified
      rw [if_pos rfl]
      exact forall2_of_forall_self _ _ fun r _ => by simp
    · unfold mark_as_notified
      rw [if_neg hids]
      exact forall2_map_of_forall _ _ _ fun r _ =>
        ⟨markRow_of_contains ids r, markRow_of_not_contains ids r⟩
  · intro hids
    subst hids
    unfold mark_as_notified
    rw [if_pos rfl]

/-- Witness for C3: with the empty id list `mark_as_notified` changes no
record's state. -/
theorem mark_as_notified_spec_witness :
    mark_as_notified markLedger [] = markLedger :=
  (mark_as_notified_spec markLedger []).2 rfl

/-! ### C10: mark_as_notified is idempotent and ignores unknown ids -/

/-- C10: marking the same ids twice yields the same ledger as marking once,
and an id list that matches no row leaves the state unchanged (the
operation is total: no error path exists). -/
theorem mark_as_notified_idempotent (st : LedgerState) (ids : List Nat) :
    mark_as_notified (mark_as_notified st ids) ids = mark_as_notified st ids ∧
    ((∀ r ∈ st.rows, ids.contains r.id = false) → mark_as_notified st ids = st) := by
  constructor
  · by_cases hids : ids = []
    · subst hids
      unfold mark_as_notified
      rw [if_pos rfl, if_pos rfl]
    · unfold mark_as_notified
      rw [if_neg hids, if_neg hids]
      congr 1
      rw [List.map_map]
      exact List.map_congr_left fun r _ => markRow_idem ids r
  · intro hnone
    by_cases hids : ids = []
    · subst hids
      unfold mark_as_notified
      rw [if_pos rfl]
    · unfold mark_as_notified
      rw [if_neg hids,
        map_eq_self_of_forall _ _ fun r hr => markRow_of_not_contains ids r (hnone r hr)]

/-- Witness for C10: ids matching no row change nothing, and marking them
twice therefore equals marking them once. -/
theorem mark_as_notified_idempotent_witness :
    mark_as_notified markLedger [17] = markLedger :=
  (mark_as_notified_idempotent markLedger [17]).2 (by decide)

/-! ### C4: the notified flag only ever moves false to true -/

/-- C4: every ledger operation preserves the monotonicity of `notified`:
`init_db` changes nothing; `insert_alert` either writes nothing or appends
one fresh row with `notified = false` while keeping all old rows verbatim;
`mark_as_notified` keeps every old row, upgrading `notified` to `true` at
most, and every row it produces is either notified or an untouched old row.
(`get_pending_alerts` is a read-only query in this embedding — it returns a
list and takes no new state, so it cannot violate the invariant.) -/
theorem notified_monotone_ops (st : LedgerState) :
    StepOk st.rows (init_db st).rows ∧
    (∀ pmid doi title journal pd ci month,
      StepOk st.rows (insert_alert st pmid doi title journal pd ci month).1.rows ∧
      ((insert_alert st pmid doi title journal pd ci month).1.rows = st.rows ∨
        ∃ fresh, (insert_alert st pmid doi title journal pd ci month).1.rows =
            st.rows ++ [fresh] ∧ fresh.notified = false)) ∧
    (∀ ids, StepOk st.rows (mark_as_notified st ids).rows ∧
      ∀ r' ∈ (mark_as_notified st ids).rows, r'.notified = true ∨ r' ∈ st.rows) := by
  refine ⟨⟨fun r hr => Or.inl hr, fun r hr _ => hr⟩, ?_, ?_⟩
  · intro pmid doi title journal pd ci month
    by_cases h : hasKey st pmid month
    · rw [insert_alert_of_hasKey st pmid doi title journal pd ci month h]
      exact ⟨⟨fun r hr => Or.inl hr, fun r hr _ => hr⟩, Or.inl rfl⟩
    · rw [insert_alert_of_not_hasKey st pmid doi title journal pd ci month
        (Bool.not_eq_true _ ▸ h)]
      refine ⟨⟨fun r hr => Or.inl (List.mem_append_left _ hr),
        fun r hr _ => List.mem_append_left _ hr⟩, Or.inr ⟨_, rfl, rfl⟩⟩
  · intro ids
    by_cases hids : ids = []
    · subst hids
      unfold mark_as_notified
      rw [if_pos rfl]
      exact ⟨⟨fun r hr => Or.inl hr, fun r hr _ => hr⟩, fun r' hr' => Or.inr hr'⟩
    · unfold mark_as_notified
      rw [if_neg hids]
      constructor
      · constructor
        · intro r hr
          cases hc : ids.contains r.id with
          | true =>
            refine Or.inr ?_
            rw [← markRow_of_contains ids r hc]
            exact List.mem_map_of_mem _ hr
          | false =>
            refine Or.inl ?_
            rw [← markRow_of_not_contains ids r hc]
            exact List.mem_map_of_mem _ hr
        · intro r hr hn
          cases hc : ids.contains r.id with
          | true =>
            have : markRow ids r = r := by
              rw [markRow_of_contains ids r hc]
              cases r
              simp_all
            rw [← this]
            exact List.mem_map_of_mem _ hr
          | false =>
            rw [← markRow_of_not_contains ids r hc]
            exact List.mem_map_of_mem _ hr
      · intro r' hr'
        rcases List.mem_map.mp hr' with ⟨r, hr, hmap⟩
        cases hc : ids.contains r.id with
        | true =>
          rw [markRow_of_contains ids r hc] at hmap
          exact Or.inl (by rw [← hmap])
        | false =>
          rw [markRow_of_not_contains ids r hc] at hmap
          exact Or.inr (hmap ▸ hr)

/-- Witness for C4: the already-notified row survives `mark_as_notified`
verbatim even when its id is targeted again. -/
theorem notified_monotone_ops_witness :
    notifiedRecord ∈ (mark_as_notified notifiedLedger [3]).rows :=
  ((notified_monotone_ops notifiedLedger).2.2 [3]).1.2 notifiedRecord
    (List.mem_singleton.mpr rfl) rfl

/-! ### C2: get_pending_alerts returns the pending rows sorted stably -/

/-- C2: the query `get_pending_alerts st p` returns exactly the rows with
`detected_month = p` and `notified = false` (a permutation of the filtered
row list, each returned row satisfying both conditions), in descending
`citation_increase` order, and ties keep insertion order: any two rows with
equal counts that appear in insertion order among the pending rows appear
in that same order in the result. -/
theorem get_pending_alerts_spec (st : LedgerState) (p : String) :
    (get_pending_alerts st p).Perm (st.rows.filter (pendingPred p)) ∧
    (∀ r ∈ get_pending_alerts st p,
      r ∈ st.rows ∧ r.detected_month = p ∧ r.notified = false) ∧
    List.Pairwise (fun a b => b.citation_increase ≤ a.citation_increase)
      (get_pending_alerts st p) ∧
    (∀ a b, a.citation_increase = b.citation_increase →
      [a, b].Sublist (st.rows.filter (pendingPred p)) →
      [a, b].Sublist (get_pending_alerts st p)) := by
  refine ⟨List.perm_insertionSort citGE _, ?_, ?_, ?_⟩
  · intro r hr
    have hr' : r ∈ st.rows.filter (pendingPred p) :=
      (List.mem_insertionSort citGE).mp hr
    have hmem := List.mem_of_mem_filter hr'
    have hpred := List.of_mem_filter hr'
    unfold pendingPred at hpred
    simp only [Bool.and_eq_true, beq_iff_eq] at hpred
    exact ⟨hmem, hpred.1, hpred.2⟩
  · exact List.sorted_insertionSort citGE _
  · intro a b hab hsub
    exact List.pair_sublist_insertionSort (le_of_eq (hab ▸ rfl)) hsub

/-- Witness for C2: two rows tied at citation count 7, inserted as
`tieRecord1` then `tieRecord2`, come back from `get_pending_alerts` in that
same order. -/
theorem get_pending_alerts_spec_witness :
    [tieRecord1, tieRecord2].Sublist (get_pending_alerts tieLedger "P") :=
  (get_pending_alerts_spec tieLedger "P").2.2.2 tieRecord1 tieRecord2 rfl
    (by decide)

/-! ### C5: a failed email send never advances notified flags -/

/-- One insert-phase iteration only adds unnotified rows. -/
theorem processOne_row_cases (getC : String → Option Int) (period : String)
    (st : LedgerState) (a : Article) (r : AlertRecord)
    (hr : r ∈ (processOne getC period st a).rows) :
    r ∈ st.rows ∨ r.notified = false := by
  unfold processOne at hr
  cases hd : a.doi with
  | none =>
    rw [hd] at hr
    exact Or.inl hr
  | some d =>
    rw [hd] at hr
    dsimp only at hr
    by_cases hde : (d == "") = true
    · rw [if_pos hde] at hr
      exact Or.inl hr
    · rw [if_neg hde] at hr
      cases hc : getC d with
      | none =>
        rw [hc] at hr
        exact Or.inl hr
      | some tc =>
        rw [hc] at hr
        dsimp only at hr
        by_cases ht : threshold ≤ tc
        · rw [if_pos ht] at hr
          exact insert_alert_row_cases st a.pmid d a.title a.journal a.published_date tc
            period r hr
        · rw [if_neg ht] at hr
          exact Or.inl hr

/-- The whole insert phase only adds unnotified rows. -/
theorem processArticles_row_cases (getC : String → Option Int) (period : String) :
    ∀ (articles : List Article) (st : LedgerState) (r : AlertRecord),
      r ∈ (processArticles st articles getC period).rows →
      r ∈ st.rows ∨ r.notified = false
  | [], _, _, hr => Or.inl hr
  | a :: t, st, r, hr => by
    have hr' : r ∈ (processArticles (processOne getC period st a) t getC period).rows := hr
    rcases processArticles_row_cases getC period t (processOne getC period st a) r hr' with
      h | h
    · exact processOne_row_cases getC period st a r h
    · exact Or.inr h

/-- C5: in a non-dry run whose email send fails, `mark_as_notified` is not
called and the final ledger is exactly the post-insert ledger, so every
notified row already existed before the run — no flag is advanced; and
whenever `mark_as_notified` is called (marked ids recorded), the email send
succeeded and the ids are exactly the pending rows' ids. -/
theorem run_email_failure_spec (st0 : LedgerState) (articles : List Article)
    (getC : String → Option Int) (period : String) :
    (run st0 articles getC period false false).marked = none ∧
    (run st0 articles getC period false false).ledger =
      processArticles st0 articles getC period ∧
    (∀ r ∈ (run st0 articles getC period false false).ledger.rows,
      r.notified = true → r ∈ st0.rows) ∧
    (∀ (emailOk : Bool) (ids : List Nat),
      (run st0 articles getC period emailOk false).marked = some ids →
      emailOk = true ∧
      ids = (get_pending_alerts (processArticles st0 articles getC period) period).map
        (fun a => a.id)) := by
  have hbase : ∀ emailOk : Bool, run st0 articles getC period emailOk false =
      (if get_pending_alerts (processArticles st0 articles getC period) period = [] then
        { ledger := processArticles st0 articles getC period, emailAttempted := false,
          marked := none }
      else if emailOk then
        { ledger := mark_as_notified (processArticles st0 articles getC period)
            ((get_pending_alerts (processArticles st0 articles getC period) period).map
              (fun a => a.id)),
          emailAttempted := true,
          marked := some ((get_pending_alerts (processArticles st0 articles getC period)
            period).map (fun a => a.id)) }
      else
        { ledger := processArticles st0 articles getC period, emailAttempted := true,
          marked := none }) := by
    intro emailOk
    unfold run
    by_cases hp : get_pending_alerts (processArticles st0 articles getC period) period = []
    · rw [if_pos hp, if_pos hp]
    · rw [if_neg hp, if_neg hp, if_neg Bool.false_ne_true]
  have hfail : run st0 articles getC period false false =
      (if get_pending_alerts (processArticles st0 articles getC period) period = [] then
        { ledger := processArticles st0 articles getC period, emailAttempted := false,
          marked := none }
      else
        { ledger := processArticles st0 articles getC period, emailAttempted := true,
          marked := none }) := by
    rw [hbase false]
    by_cases hp : get_pending_alerts (processArticles st0 articles getC period) period = []
    · rw [if_pos hp, if_pos hp]
    · rw [if_neg hp, if_neg hp, if_neg Bool.false_ne_true]
  refine ⟨?_, ?_, ?_, ?_⟩
  · rw [hfail]
    by_cases hp : get_pending_alerts (processArticles st0 articles getC period) period = []
    · rw [if_pos hp]
    · rw [if_neg hp]
  · rw [hfail]
    by_cases hp : get_pending_alerts (processArticles st0 articles getC period) period = []
    · rw [if_pos hp]
    · rw [if_neg hp]
  · intro r hr hn
    rw [hfail] at hr
    have hmem : r ∈ (processArticles st0 articles getC period).rows := by
      by_cases hp : get_pending_alerts (processArticles st0 articles getC period) period = []
      · rw [if_pos hp] at hr
        exact hr
      · rw [if_neg hp] at hr
        exact hr
    rcases processArticles_row_cases getC period articles st0 r hmem with h | h
    · exact h
    · rw [hn] at h
      exact absurd h (by simp)
  · intro emailOk ids hm
    rw [hbase emailOk] at hm
    by_cases hp : get_pending_alerts (processArticles st0 articles getC period) period = []
    · rw [if_pos hp] at hm
      exact absurd hm (by simp)
    · rw [if_neg hp] at hm
      cases emailOk with
      | false =>
        rw [if_neg Bool.false_ne_true] at hm
        exact absurd hm (by simp)
      | true =>
        rw [if_pos rfl] at hm
        simp only [Option.some.injEq] at hm
        exact ⟨rfl, hm.symm⟩

/-- Witness for C5: with the email succeeding, `mark_as_notified` is called
on exactly the pending row's id (here id 1). -/
theorem run_email_failure_spec_witness :
    true = true ∧
    [1] = (get_pending_alerts (processArticles emptyLedger [cArticle]
        (fun _ => some 12) "P") "P").map (fun a => a.id) :=
  (run_email_failure_spec emptyLedger [cArticle] (fun _ => some 12) "P").2.2.2 true [1]
    (by decide)

/-! ### C7: the citation filter is >= threshold, not strictly greater -/

/-- Counterexample to C7: an article whose current citation count is exactly
the threshold 10 IS recorded in the ledger (the code tests
`total_citations >= threshold`), although 10 is not strictly greater than
the threshold — so "inserted exactly when the count exceeds the threshold"
fails at count = 10. -/
theorem citation_threshold_counterexample :
    hasKey (processArticles emptyLedger [cArticle] (fun _ => some 10) "P")
      cArticle.pmid "P" = true ∧
    ¬ ((10 : Int) > threshold) :=
  ⟨by decide, by decide⟩

/-- C7 (amended): for an article with a usable DOI and an available count
`c`, processed from a ledger not yet holding its key, an alert row for it
is present afterwards exactly when `c >= 10` (the threshold comparison is
`>=`, not `>`); and an article whose count is below the threshold
contributes nothing to the insert phase. -/
theorem citation_threshold_amended (st : LedgerState) (a : Article) (d : String) (c : Int)
    (getC : String → Option Int) (period : String)
    (hd : a.doi = some d) (hne : d ≠ "") (hc : getC d = some c)
    (hk : hasKey st a.pmid period = false) :
    (hasKey (processArticles st [a] getC period) a.pmid period = true ↔ threshold ≤ c) ∧
    (∀ (st' : LedgerState) (rest : List Article), c < threshold →
      processArticles st' (a :: rest) getC period = processArticles st' rest getC period) := by
  have hbe : ¬ ((d == "") = true) := fun hx => hne (by simpa using hx)
  constructor
  · show hasKey (processOne getC period st a) a.pmid period = true ↔ threshold ≤ c
    unfold processOne
    rw [hd]
    dsimp only
    rw [if_neg hbe, hc]
    dsimp only
    by_cases ht : threshold ≤ c
    · rw [if_pos ht]
      refine ⟨fun _ => ht, fun _ => ?_⟩
      rw [insert_alert_of_not_hasKey st a.pmid d a.title a.journal a.published_date c
        period hk]
      exact hasKey_of_mem _
        { id := st.nextId, pmid := a.pmid, doi := d, title := a.title,
          journal := a.journal, published_date := a.published_date,
          citation_increase := c, detected_month := period, notified := false }
        (List.mem_append_right _ (List.mem_singleton.mpr rfl))
    · rw [if_neg ht, hk]
      exact ⟨fun hx => absurd hx Bool.false_ne_true, fun hx => absurd hx ht⟩
  · intro st' rest hcl
    have hone : processOne getC period st' a = st' := by
      unfold processOne
      rw [hd]
      dsimp only
      rw [if_neg hbe, hc]
      dsimp only
      rw [if_neg (not_le.mpr hcl)]
    show processArticles (processOne getC period st' a) rest getC period =
      processArticles st' rest getC period
    rw [hone]

/-- Witness for C7 (amended): with count 12 the article's key is present
after the insert phase, matching `threshold <= 12`. -/
theorem citation_threshold_amended_witness :
    hasKey (processArticles emptyLedger [cArticle] (fun _ => some 12) "P")
      cArticle.pmid "P" = true ↔ threshold ≤ (12 : Int) :=
  (citation_threshold_amended emptyLedger cArticle "10.1/x" 12 (fun _ => some 12) "P" rfl
    (by decide) rfl (by decide)).1

/-! ### C6: the retry wait policy of summarize_abstract -/

/-- A parsed retry hint fixes the wait at hint plus 5 seconds. -/
theorem waitOnError_of_some (m : String) (h : ℚ) (hh : extractRetryHint m = some h) :
    waitOnError m = h + 5 := by
  unfold waitOnError
  rw [hh]

/-- Without a parsed hint the wait is the fixed fallback. -/
theorem waitOnError_of_none (m : String) (hh : extractRetryHint m = none) :
    waitOnError m = RETRY_WAIT_SEC := by
  unfold waitOnError
  rw [hh]

/-- Every wait recorded by the retry loop belongs to a failed attempt with
retries remaining and equals `waitOnError` of that attempt's message. -/
theorem loopFrom_waits (outcomes : Nat → ApiOutcome) :
    ∀ (fuel attempt i : Nat) (w : ℚ),
      (loopFrom outcomes attempt fuel).2[i]? = some w →
      ∃ m, outcomes (attempt + i) = ApiOutcome.err m ∧ attempt + i < MAX_RETRIES ∧
        w = waitOnError m
  | 0, attempt, i, w, hw => by simp [loopFrom] at hw
  | fuel + 1, attempt, i, w, hw => by
    cases ho : outcomes attempt with
    | ok t =>
      simp only [loopFrom, ho] at hw
      simp at hw
    | err m =>
      simp only [loopFrom, ho] at hw
      by_cases hlt : attempt < MAX_RETRIES
      · rw [if_pos hlt] at hw
        cases i with
        | zero =>
          simp only [List.getElem?_cons_zero, Option.some.injEq] at hw
          exact ⟨m, by rw [Nat.add_zero]; exact ho, by rw [Nat.add_zero]; exact hlt, hw.symm⟩
        | succ j =>
          simp only [List.getElem?_cons_succ] at hw
          rcases loopFrom_waits outcomes fuel (attempt + 1) j w hw with ⟨m', h1, h2, h3⟩
          refine ⟨m', ?_, ?_, h3⟩
          · rw [show attempt + (j + 1) = attempt + 1 + j from by omega]
            exact h1
          · rw [show attempt + (j + 1) = attempt + 1 + j from by omega]
            exact h2
      · rw [if_neg hlt] at hw
        simp at hw

/-- Counterexample to C6: with no hint in the error message the code waits
the fixed `RETRY_WAIT_SEC = 65` before BOTH retries, whereas the claimed
per-attempt doubling demands `65 * 2 = 130` after the second failed
attempt. -/
theorem summarize_retry_wait_counterexample :
    (summarize_abstract "x" "y" (fun _ => ApiOutcome.err "quota")).2 =
      [RETRY_WAIT_SEC, RETRY_WAIT_SEC] ∧
    extractRetryHint "quota" = none ∧
    claimFallbackWait 2 ≠ RETRY_WAIT_SEC := by
  refine ⟨rfl, rfl, ?_⟩
  unfold claimFallbackWait RETRY_WAIT_SEC
  norm_num

/-- C6 (amended): for every failed attempt with retries remaining, the wait
slept before the next attempt is the parsed provider hint plus 5 seconds
when the message carries one, and otherwise the fixed fallback
`RETRY_WAIT_SEC = 65`, identical for every attempt index (no doubling). -/
theorem summarize_retry_wait_amended (outcomes : Nat → ApiOutcome) (a k : String)
    (ha : isBlank a = false) (hk : ¬ k = "") (i : Nat) (w : ℚ)
    (hw : (summarize_abstract a k outcomes).2[i]? = some w) :
    ∃ m, outcomes (i + 1) = ApiOutcome.err m ∧ i + 1 < MAX_RETRIES ∧
      (∀ h, extractRetryHint m = some h → w = h + 5) ∧
      (extractRetryHint m = none → w = RETRY_WAIT_SEC) := by
  unfold summarize_abstract at hw
  rw [if_neg (ha ▸ Bool.false_ne_true), if_neg hk] at hw
  rcases loopFrom_waits outcomes MAX_RETRIES 1 i w hw with ⟨m, h1, h2, h3⟩
  refine ⟨m, ?_, ?_, ?_, ?_⟩
  · rw [Nat.add_comm]
    exact h1
  · rw [Nat.add_comm]
    exact h2
  · intro h hh
    rw [h3, waitOnError_of_some m h hh]
  · intro hh
    rw [h3, waitOnError_of_none m hh]

/-- Witness for C6 (amended): attempt 1 fails with a hintless message, and
the recorded wait is the fixed fallback of 65 seconds. -/
theorem summarize_retry_wait_amended_witness :
    ∃ m, witOutcomes (0 + 1) = ApiOutcome.err m ∧ 0 + 1 < MAX_RETRIES ∧
      (∀ h, extractRetryHint m = some h → RETRY_WAIT_SEC = h + 5) ∧
      (extractRetryHint m = none → RETRY_WAIT_SEC = RETRY_WAIT_SEC) :=
  summarize_retry_wait_amended witOutcomes "x" "y" rfl (by decide) 0 RETRY_WAIT_SEC rfl

/-! ### C8: impact-factor lookup order and the empty-name guard -/

/-- Counterexample to C8: the claim's ordered lookup (exact match, then
first case-insensitive substring match) would return the first entry's
value 14.0 for the empty journal name — the empty string substring-matches
every key — but the code returns 'N/A' for a falsy journal name before any
lookup. -/
theorem impact_factor_counterexample :
    get_impact_factor "" = IFValue.na ∧
    get_impact_factor_claimSpec "" = IFValue.val 14.0 ∧
    IFValue.na ≠ IFValue.val 14.0 :=
  ⟨rfl, rfl, fun h => IFValue.noConfusion h⟩

/-- C8 (amended): the empty journal name returns 'N/A' immediately, and for
every non-empty journal name `get_impact_factor` is exactly the claim's
ordered lookup: the exact-match entry when one exists, else the value of
the first entry in listed order matching by case-insensitive substring
comparison (in either direction), else 'N/A'. -/
theorem get_impact_factor_amended :
    get_impact_factor "" = IFValue.na ∧
    ∀ j : String, j ≠ "" → get_impact_factor j = get_impact_factor_claimSpec j := by
  constructor
  · rfl
  · intro j hj
    unfold get_impact_factor get_impact_factor_claimSpec
    rw [if_neg hj]

/-- Witness for C8 (amended): a non-empty journal name agrees with the
claim's ordered lookup. -/
theorem get_impact_factor_amended_witness :
    get_impact_factor "IOVS" = get_impact_factor_claimSpec "IOVS" :=
  get_impact_factor_amended.2 "IOVS" (by decide)
